import Mathlib

/-!
Verification of `common/channelconfig/bundlesource.go` (Hyperledger Fabric).

The file embeds the `BundleSource` atomic snapshot holder and its accessors
as Lean definitions, models update/read traces as linearized operation lists
(the Go slot is a single `sync/atomic.Value`, whose stores and loads are
individually atomic), and proves the spec's claims about it.
-/

/-- Modelled from the spec: the policy-evaluation component of a snapshot
(`policies.Manager` in Go, external to the repository slice); spec §3 says
components are opaque tagged references, so it carries only a tag. -/
structure PoliciesManager where
  tag : String
deriving DecidableEq, Repr

/-- Modelled from the spec: the membership/identity-management component
(`msp.MSPManager` in Go, external), an opaque tagged reference. -/
structure MspManager where
  tag : String
deriving DecidableEq, Repr

/-- Modelled from the spec: the general channel-parameters sub-view of the
root configuration (`oldchannelconfig.Channel`, external), opaque tagged. -/
structure ChannelCfg where
  tag : String
deriving DecidableEq, Repr

/-- Modelled from the spec: the optional ordering-service sub-view
(`oldchannelconfig.Orderer`, external), opaque tagged. -/
structure OrdererCfg where
  tag : String
deriving DecidableEq, Repr

/-- Modelled from the spec: the optional consortiums sub-view
(`oldchannelconfig.Consortiums`, external), opaque tagged. -/
structure ConsortiumsCfg where
  tag : String
deriving DecidableEq, Repr

/-- Modelled from the spec: the optional application sub-view
(`oldchannelconfig.Application`, external), opaque tagged. -/
structure ApplicationCfg where
  tag : String
deriving DecidableEq, Repr

/-- Modelled from the spec: the transaction/config-update manager component
(`configtxapi.Manager`, external), an opaque tagged reference. -/
structure ConfigtxMgr where
  tag : String
deriving DecidableEq, Repr

/-- Modelled from the spec: the root configuration component
(`oldchannelconfig.Root`, external to the repository slice).  Per spec §3 it
exposes the general channel parameters plus three optional sub-views
(ordering service, consortiums, application); absence of an optional
sub-view is the Go methods returning a nil interface, modelled as `none`. -/
structure RootConfig where
  channel : ChannelCfg
  orderer : Option OrdererCfg
  consortiums : Option ConsortiumsCfg
  application : Option ApplicationCfg
deriving DecidableEq, Repr

/-- Embeds `rootConfig.Channel()`. -/
def RootConfig.Channel (r : RootConfig) : ChannelCfg :=
  r.channel

/-- Embeds `rootConfig.Orderer()`; a nil interface result is `none`. -/
def RootConfig.Orderer (r : RootConfig) : Option OrdererCfg :=
  r.orderer

/-- Embeds `rootConfig.Consortiums()`; a nil interface result is `none`. -/
def RootConfig.Consortiums (r : RootConfig) : Option ConsortiumsCfg :=
  r.consortiums

/-- Embeds `rootConfig.Application()`; a nil interface result is `none`. -/
def RootConfig.Application (r : RootConfig) : Option ApplicationCfg :=
  r.application

/-- Modelled from the spec: the `Bundle` type (the immutable Snapshot).  Its
definition is outside the repository slice; `bundlesource.go` reads exactly
the fields `policyManager`, `mspManager`, `rootConfig`, `configtxManager`,
which spec §3 lists as the Snapshot's four immutable sub-component
references. -/
structure Bundle where
  policyManager : PoliciesManager
  mspManager : MspManager
  rootConfig : RootConfig
  configtxManager : ConfigtxMgr
deriving DecidableEq, Repr

/-- The contents of the Go `sync/atomic.Value` slot.  A zero `atomic.Value`
holds nothing (`Load` returns a nil interface and the type assertion in
`StableBundle` would panic); after a `Store` it holds an `interface` value
of dynamic type `*Bundle`, whose pointer may itself be nil (`none`). -/
inductive AtomicVal where
  | empty : AtomicVal
  | bundlePtr : Option Bundle → AtomicVal
deriving DecidableEq, Repr

/-- Embeds the Go struct `BundleSource { bundle atomic.Value }`.  Go mutation
of the slot is rendered as state passing: each operation returns the updated
source value. -/
structure BundleSource where
  bundle : AtomicVal
deriving DecidableEq, Repr

/-- Embeds `NewBundleSource`: allocate a `BundleSource` (zero slot) and
`Store` the initial bundle pointer into it.  The Go code performs no nil
check; a nil `*Bundle` is a typed-nil interface, which `atomic.Value.Store`
accepts. -/
def NewBundleSource (bundle : Option Bundle) : BundleSource :=
  { bundle := AtomicVal.bundlePtr bundle }

/-- Embeds `(*BundleSource).Update`: `bs.bundle.Store(newBundle)`,
unconditionally overwriting the slot.  No nil check is performed. -/
def BundleSource.Update (bs : BundleSource) (newBundle : Option Bundle) : BundleSource :=
  { bs with bundle := AtomicVal.bundlePtr newBundle }

/-- Embeds the load-and-type-assert `bs.bundle.Load().(*Bundle)` inside
`StableBundle`.  The outer `Option` is the panic possibility of the
unchecked assertion: `none` models the panic on a never-stored slot. -/
def AtomicVal.loadAssert : AtomicVal → Option (Option Bundle)
  | AtomicVal.empty => none
  | AtomicVal.bundlePtr b => some b

/-- Embeds `(*BundleSource).StableBundle`: `return bs.bundle.Load().(*Bundle)`.
The result `some p` is the successfully asserted `*Bundle` value `p`
(itself possibly a nil pointer, `none`); `none` is an assertion panic. -/
def BundleSource.StableBundle (bs : BundleSource) : Option (Option Bundle) :=
  bs.bundle.loadAssert

/-- Embeds `(*BundleSource).PolicyManager`:
`return bs.StableBundle().policyManager`.  The field read dereferences the
pointer, so a nil bundle is a panic, modelled by `none`. -/
def BundleSource.PolicyManager (bs : BundleSource) : Option PoliciesManager :=
  bs.StableBundle.bind (fun pb => pb.map Bundle.policyManager)

/-- Embeds `(*BundleSource).MSPManager`:
`return bs.StableBundle().mspManager`. -/
def BundleSource.MSPManager (bs : BundleSource) : Option MspManager :=
  bs.StableBundle.bind (fun pb => pb.map Bundle.mspManager)

/-- Embeds `(*BundleSource).ChannelConfig`:
`return bs.StableBundle().rootConfig.Channel()`. -/
def BundleSource.ChannelConfig (bs : BundleSource) : Option ChannelCfg :=
  bs.StableBundle.bind (fun pb => pb.map (fun b => b.rootConfig.Channel))

/-- Embeds `(*BundleSource).OrdererConfig`:
`result := bs.StableBundle().rootConfig.Orderer(); return result, result != nil`. -/
def BundleSource.OrdererConfig (bs : BundleSource) : Option (Option OrdererCfg × Bool) :=
  bs.StableBundle.bind (fun pb => pb.map (fun b =>
    (b.rootConfig.Orderer, b.rootConfig.Orderer.isSome)))

/-- Embeds `(*BundleSource).ConsortiumsConfig`:
`result := bs.StableBundle().rootConfig.Consortiums(); return result, result != nil`. -/
def BundleSource.ConsortiumsConfig (bs : BundleSource) : Option (Option ConsortiumsCfg × Bool) :=
  bs.StableBundle.bind (fun pb => pb.map (fun b =>
    (b.rootConfig.Consortiums, b.rootConfig.Consortiums.isSome)))

/-- Embeds `(*BundleSource).ApplicationConfig`:
`result := bs.StableBundle().rootConfig.Application(); return result, result != nil`. -/
def BundleSource.ApplicationConfig (bs : BundleSource) : Option (Option ApplicationCfg × Bool) :=
  bs.StableBundle.bind (fun pb => pb.map (fun b =>
    (b.rootConfig.Application, b.rootConfig.Application.isSome)))

/-- Embeds `(*BundleSource).ConfigtxManager`:
`return bs.StableBundle().configtxManager`. -/
def BundleSource.ConfigtxManager (bs : BundleSource) : Option ConfigtxMgr :=
  bs.StableBundle.bind (fun pb => pb.map Bundle.configtxManager)

/-- A writer operation on the source.  `Update` is the only mutator the Go
type exposes, so a linearized history of writers is a list of updates. -/
inductive SourceOp where
  | update : Option Bundle → SourceOp
deriving DecidableEq, Repr

/-- Applies a linearized sequence of `Update` calls to a source. -/
def applyOps (bs : BundleSource) : List SourceOp → BundleSource
  | [] => bs
  | SourceOp.update b :: rest => applyOps (bs.Update b) rest

/-- The pointer held by the slot after a linearized update sequence, starting
from held value `cur`: the last updated value, or `cur` if none. -/
def lastUpdated (cur : Option Bundle) : List SourceOp → Option Bundle
  | [] => cur
  | SourceOp.update b :: rest => lastUpdated b rest

/-- What a reader's `StableBundle()` load observes when it linearizes after
the first `j` operations of the history `ops`. -/
def readAt (b0 : Option Bundle) (ops : List SourceOp) (j : Nat) : Option (Option Bundle) :=
  (applyOps (NewBundleSource b0) (ops.take j)).StableBundle

/-- Concrete snapshot with every optional sub-view present, tagged "A". -/
def bundleA : Bundle :=
  { policyManager := { tag := "polA" }
    mspManager := { tag := "mspA" }
    rootConfig :=
      { channel := { tag := "v1" }
        orderer := some { tag := "ordA" }
        consortiums := some { tag := "conA" }
        application := some { tag := "appA" } }
    configtxManager := { tag := "ctxA" } }

/-- Concrete snapshot with every optional sub-view absent, tagged "B". -/
def bundleB : Bundle :=
  { policyManager := { tag := "polB" }
    mspManager := { tag := "mspB" }
    rootConfig :=
      { channel := { tag := "v2" }
        orderer := none
        consortiums := none
        application := none }
    configtxManager := { tag := "ctxB" } }

theorem applyOps_newBundleSource (ops : List SourceOp) :
    ∀ b0 : Option Bundle,
      applyOps (NewBundleSource b0) ops = NewBundleSource (lastUpdated b0 ops) := by
  induction ops with
  | nil => intro b0; rfl
  | cons op rest ih =>
    intro b0
    cases op with
    | update b => exact ih b

theorem lastUpdated_mem (ops : List SourceOp) :
    ∀ b0 : Option Bundle,
      lastUpdated b0 ops = b0 ∨ SourceOp.update (lastUpdated b0 ops) ∈ ops := by
  induction ops with
  | nil => intro b0; exact Or.inl rfl
  | cons op rest ih =>
    intro b0
    cases op with
    | update b =>
      rcases ih b with h | h
      · refine Or.inr ?_
        show SourceOp.update (lastUpdated b rest) ∈ SourceOp.update b :: rest
        rw [h]
        exact List.mem_cons_self _ _
      · exact Or.inr (List.mem_cons_of_mem _ h)

theorem lastUpdated_after (ops : List SourceOp) :
    ∀ (b0 S : Option Bundle) (i : Nat),
      ops[i]? = some (SourceOp.update S) →
      ∃ k v, i ≤ k ∧ k < ops.length ∧ ops[k]? = some (SourceOp.update v) ∧
        lastUpdated b0 ops = v := by
  induction ops with
  | nil =>
    intro b0 S i h
    simp at h
  | cons op rest ih =>
    intro b0 S i h
    cases op with
    | update b =>
      cases i with
      | zero =>
        rcases lastUpdated_mem rest b with h1 | h1
        · exact ⟨0, lastUpdated b rest, Nat.zero_le _, Nat.succ_pos _, by rw [h1]; simp, rfl⟩
        · rcases List.getElem?_of_mem h1 with ⟨k, hk⟩
          have hkl : k < rest.length := (List.getElem?_eq_some.mp hk).1
          exact ⟨k + 1, lastUpdated b rest, Nat.zero_le _, Nat.succ_lt_succ hkl,
            by simpa using hk, rfl⟩
      | succ i =>
        have h' : rest[i]? = some (SourceOp.update S) := by simpa using h
        rcases ih b S i h' with ⟨k, v, hik, hkl, hgk, hval⟩
        exact ⟨k + 1, v, Nat.succ_le_succ hik, Nat.succ_lt_succ hkl,
          by simpa using hgk, hval⟩

/-- C1: a source just built by `NewBundleSource(b)` has `StableBundle() = b`;
after any `Update(n)`, `StableBundle()` returns exactly `n`; and the
end-to-end scenario holds: construct with v1 (ordering view present), read
v1; update to v2 (ordering view absent), read v2 with `OrdererConfig`
reporting absence. -/
theorem stableBundle_new_and_update :
    (∀ b : Bundle, (NewBundleSource (some b)).StableBundle = some (some b)) ∧
    (∀ (bs : BundleSource) (n : Bundle), (bs.Update (some n)).StableBundle = some (some n)) ∧
    (NewBundleSource (some bundleA)).ChannelConfig = some { tag := "v1" } ∧
    ((NewBundleSource (some bundleA)).Update (some bundleB)).StableBundle = some (some bundleB) ∧
    ((NewBundleSource (some bundleA)).Update (some bundleB)).ChannelConfig = some { tag := "v2" } ∧
    ((NewBundleSource (some bundleA)).Update (some bundleB)).OrdererConfig = some (none, false) :=
  ⟨fun _ => rfl, fun _ _ => rfl, rfl, rfl, rfl, rfl⟩

/-- C2: in any linearized history of `Update` calls, a `StableBundle()` load
observes either the construction-time pointer or the value of some update
already applied — never a torn or never-stored value — and a load
linearizing after the update at position `i` observes that update's value or
a later one, never an earlier one. -/
theorem read_atomic_and_monotonic (b0 S : Option Bundle) (ops : List SourceOp) (i j : Nat)
    (hij : i < j) (_hj : j ≤ ops.length) (hi : ops[i]? = some (SourceOp.update S)) :
    (∀ j2, ∃ v, readAt b0 ops j2 = some v ∧ (v = b0 ∨ SourceOp.update v ∈ ops.take j2)) ∧
    (∃ k v, i ≤ k ∧ k < j ∧ ops[k]? = some (SourceOp.update v) ∧ readAt b0 ops j = some v) := by
  constructor
  · intro j2
    refine ⟨lastUpdated b0 (ops.take j2), ?_, lastUpdated_mem (ops.take j2) b0⟩
    show (applyOps (NewBundleSource b0) (ops.take j2)).StableBundle = _
    rw [applyOps_newBundleSource]
    rfl
  · have hi2 : (ops.take j)[i]? = some (SourceOp.update S) := by
      rw [List.getElem?_take, if_pos hij, hi]
    rcases lastUpdated_after (ops.take j) b0 S i hi2 with ⟨k, v, hik, hkl, hgk, hval⟩
    have hkj : k < j := by
      have := hkl
      rw [List.length_take] at this
      exact lt_of_lt_of_le this (Nat.min_le_left _ _)
    refine ⟨k, v, hik, hkj, ?_, ?_⟩
    · rw [List.getElem?_take, if_pos hkj] at hgk
      exact hgk
    · show (applyOps (NewBundleSource b0) (ops.take j)).StableBundle = some v
      rw [applyOps_newBundleSource]
      exact congrArg some hval

/-- Witness for C2 at the concrete history [Update bundleB] from initial
bundleA, with i = 0, j = 1. -/
theorem read_atomic_and_monotonic_witness :
    (0 < 1) ∧ (1 ≤ ([SourceOp.update (some bundleB)] : List SourceOp).length) ∧
    (([SourceOp.update (some bundleB)] : List SourceOp)[0]? = some (SourceOp.update (some bundleB))) ∧
    ((∀ j2, ∃ v, readAt (some bundleA) [SourceOp.update (some bundleB)] j2 = some v ∧
        (v = some bundleA ∨ SourceOp.update v ∈ ([SourceOp.update (some bundleB)] : List SourceOp).take j2)) ∧
     (∃ k v, 0 ≤ k ∧ k < 1 ∧
        ([SourceOp.update (some bundleB)] : List SourceOp)[k]? = some (SourceOp.update v) ∧
        readAt (some bundleA) [SourceOp.update (some bundleB)] 1 = some v)) :=
  ⟨by decide, by decide, by simp,
    read_atomic_and_monotonic (some bundleA) (some bundleB)
      [SourceOp.update (some bundleB)] 0 1 (by decide) (by decide) (by simp)⟩

/-- C3: a handle obtained from one `StableBundle()` call is a fixed snapshot
value: after `Update(b)` the source reads `b`, but every accessor result
derived from the previously acquired handle still reflects `a`, and (when
`a` and `b` differ) the handle does not reflect `b`. -/
theorem stable_handle_frame (a b : Bundle) :
    (NewBundleSource (some a)).StableBundle = some (some a) ∧
    ((NewBundleSource (some a)).Update (some b)).StableBundle = some (some b) ∧
    ((NewBundleSource (some a)).StableBundle).bind (fun pb => pb.map Bundle.policyManager) = some a.policyManager ∧
    ((NewBundleSource (some a)).StableBundle).bind (fun pb => pb.map Bundle.mspManager) = some a.mspManager ∧
    ((NewBundleSource (some a)).StableBundle).bind (fun pb => pb.map (fun x => x.rootConfig.Channel)) = some a.rootConfig.Channel ∧
    ((NewBundleSource (some a)).StableBundle).bind (fun pb => pb.map (fun x => x.rootConfig.Orderer)) = some a.rootConfig.Orderer ∧
    ((NewBundleSource (some a)).StableBundle).bind (fun pb => pb.map Bundle.configtxManager) = some a.configtxManager ∧
    (a = b ∨ (NewBundleSource (some a)).StableBundle ≠ some (some b)) := by
  refine ⟨rfl, rfl, rfl, rfl, rfl, rfl, rfl, ?_⟩
  by_cases hab : a = b
  · exact Or.inl hab
  · refine Or.inr ?_
    intro hcontra
    have h2 : some (some a) = some (some b) := hcontra
    exact hab (Option.some.inj (Option.some.inj h2))

/-- C4: each convenience accessor returns exactly the corresponding field
(or root-config sub-view) of the bundle the single `StableBundle()` load
returns, for a freshly constructed source and for any just-updated source. -/
theorem accessors_delegate (b : Bundle) (bs : BundleSource) :
    ((NewBundleSource (some b)).PolicyManager = some b.policyManager ∧
     (NewBundleSource (some b)).MSPManager = some b.mspManager ∧
     (NewBundleSource (some b)).ChannelConfig = some b.rootConfig.Channel ∧
     (NewBundleSource (some b)).OrdererConfig = some (b.rootConfig.Orderer, b.rootConfig.Orderer.isSome) ∧
     (NewBundleSource (some b)).ConsortiumsConfig = some (b.rootConfig.Consortiums, b.rootConfig.Consortiums.isSome) ∧
     (NewBundleSource (some b)).ApplicationConfig = some (b.rootConfig.Application, b.rootConfig.Application.isSome) ∧
     (NewBundleSource (some b)).ConfigtxManager = some b.configtxManager) ∧
    ((bs.Update (some b)).PolicyManager = some b.policyManager ∧
     (bs.Update (some b)).MSPManager = some b.mspManager ∧
     (bs.Update (some b)).ChannelConfig = some b.rootConfig.Channel ∧
     (bs.Update (some b)).OrdererConfig = some (b.rootConfig.Orderer, b.rootConfig.Orderer.isSome) ∧
     (bs.Update (some b)).ConsortiumsConfig = some (b.rootConfig.Consortiums, b.rootConfig.Consortiums.isSome) ∧
     (bs.Update (some b)).ApplicationConfig = some (b.rootConfig.Application, b.rootConfig.Application.isSome) ∧
     (bs.Update (some b)).ConfigtxManager = some b.configtxManager) :=
  ⟨⟨rfl, rfl, rfl, rfl, rfl, rfl, rfl⟩, ⟨rfl, rfl, rfl, rfl, rfl, rfl, rfl⟩⟩

/-- C5: two back-to-back convenience accessors are not from one snapshot:
with bundleA installed, the first accessor reflects bundleA; after
Update(bundleB), the second accessor reflects bundleB, whose components
differ from bundleA's. -/
theorem accessors_can_straddle_update :
    (NewBundleSource (some bundleA)).PolicyManager = some bundleA.policyManager ∧
    (NewBundleSource (some bundleA)).MSPManager = some bundleA.mspManager ∧
    ((NewBundleSource (some bundleA)).Update (some bundleB)).MSPManager = some bundleB.mspManager ∧
    bundleA ≠ bundleB ∧
    ((NewBundleSource (some bundleA)).Update (some bundleB)).MSPManager ≠
      (NewBundleSource (some bundleA)).MSPManager :=
  ⟨rfl, rfl, rfl, by decide, by decide⟩

/-- C6: each optional-view accessor reports the root config's sub-view
together with an exists flag equal to its presence; the outcome is always
either (nil, false) on absence or (view, true) on presence, with no error. -/
theorem optional_views (b : Bundle) :
    (NewBundleSource (some b)).OrdererConfig = some (b.rootConfig.Orderer, b.rootConfig.Orderer.isSome) ∧
    ((NewBundleSource (some b)).OrdererConfig = some (none, false) ∨
      ∃ o, (NewBundleSource (some b)).OrdererConfig = some (some o, true)) ∧
    (NewBundleSource (some b)).ConsortiumsConfig = some (b.rootConfig.Consortiums, b.rootConfig.Consortiums.isSome) ∧
    ((NewBundleSource (some b)).ConsortiumsConfig = some (none, false) ∨
      ∃ c, (NewBundleSource (some b)).ConsortiumsConfig = some (some c, true)) ∧
    (NewBundleSource (some b)).ApplicationConfig = some (b.rootConfig.Application, b.rootConfig.Application.isSome) ∧
    ((NewBundleSource (some b)).ApplicationConfig = some (none, false) ∨
      ∃ a, (NewBundleSource (some b)).ApplicationConfig = some (some a, true)) := by
  have ho : (NewBundleSource (some b)).OrdererConfig
      = some (b.rootConfig.orderer, b.rootConfig.orderer.isSome) := rfl
  have hc : (NewBundleSource (some b)).ConsortiumsConfig
      = some (b.rootConfig.consortiums, b.rootConfig.consortiums.isSome) := rfl
  have ha : (NewBundleSource (some b)).ApplicationConfig
      = some (b.rootConfig.application, b.rootConfig.application.isSome) := rfl
  refine ⟨rfl, ?_, rfl, ?_, rfl, ?_⟩
  · cases hb : b.rootConfig.orderer with
    | none => exact Or.inl (by rw [ho, hb]; rfl)
    | some o => exact Or.inr ⟨o, by rw [ho, hb]; rfl⟩
  · cases hb : b.rootConfig.consortiums with
    | none => exact Or.inl (by rw [hc, hb]; rfl)
    | some c => exact Or.inr ⟨c, by rw [hc, hb]; rfl⟩
  · cases hb : b.rootConfig.application with
    | none => exact Or.inl (by rw [ha, hb]; rfl)
    | some a => exact Or.inr ⟨a, by rw [ha, hb]; rfl⟩

/-- C7 counterexample: constructing with a nil bundle and updating with a
nil bundle both complete without any rejection — the nil pointer is stored
and read back by `StableBundle`, and the fault surfaces only when an
accessor dereferences it (the `none` results below) — contradicting the
claim that these calls fail fast at the call site. -/
theorem nil_not_rejected_counterexample :
    (NewBundleSource none).StableBundle = some none ∧
    ((NewBundleSource (some bundleA)).Update none).StableBundle = some none ∧
    (NewBundleSource none).PolicyManager = none ∧
    ((NewBundleSource (some bundleA)).Update none).MSPManager = none :=
  ⟨rfl, rfl, rfl, rfl⟩

/-- C7 amended: `NewBundleSource(nil)` and `Update(nil)` perform no
validation and succeed unconditionally; the nil bundle is stored, a
subsequent `StableBundle()` returns it, and the nil-dereference fault is
deferred to the first accessor call. -/
theorem nil_accepted_and_deferred (bs : BundleSource) :
    (NewBundleSource none).StableBundle = some none ∧
    (bs.Update none).StableBundle = some none ∧
    (NewBundleSource none).PolicyManager = none ∧
    (bs.Update none).PolicyManager = none ∧
    (bs.Update none).OrdererConfig = none :=
  ⟨rfl, rfl, rfl, rfl, rfl⟩

theorem lastUpdated_map_some (bundles : List Bundle) :
    ∀ b0 : Bundle,
      ∃ b : Bundle,
        lastUpdated (some b0) (bundles.map (fun x => SourceOp.update (some x))) = some b ∧
        (b = b0 ∨ b ∈ bundles) := by
  induction bundles with
  | nil => intro b0; exact ⟨b0, rfl, Or.inl rfl⟩
  | cons x rest ih =>
    intro b0
    rcases ih x with ⟨b, hb, hmem⟩
    refine ⟨b, hb, Or.inr ?_⟩
    rcases hmem with h | h
    · rw [h]; exact List.mem_cons_self _ _
    · exact List.mem_cons_of_mem _ h

/-- C8: starting from a non-nil bundle and applying any finite sequence of
non-nil updates, the slot is never empty: `StableBundle()` returns (without
panic) a non-nil bundle that was previously installed. -/
theorem slot_never_empty (b0 : Bundle) (bundles : List Bundle) :
    ∃ b : Bundle,
      (applyOps (NewBundleSource (some b0))
        (bundles.map (fun x => SourceOp.update (some x)))).StableBundle = some (some b) ∧
      (b = b0 ∨ b ∈ bundles) := by
  rcases lastUpdated_map_some bundles b0 with ⟨b, hb, hmem⟩
  refine ⟨b, ?_, hmem⟩
  rw [applyOps_newBundleSource]
  exact congrArg some hb

/-- C9: `Update` overwrites unconditionally (last writer wins): the state
after `Update(next)` depends only on `next`, so Update(a);Update(b) equals
Update(b) alone, and Update(s) is idempotent. -/
theorem update_last_writer_wins (bs bs2 : BundleSource) (a b s : Option Bundle) :
    (bs.Update a).Update b = bs.Update b ∧
    (bs.Update s).Update s = bs.Update s ∧
    bs.Update b = bs2.Update b := by
  cases bs
  cases bs2
  exact ⟨rfl, rfl, rfl⟩

/-- C10: the unchecked type assertion in `StableBundle` cannot panic: on
every source reachable by `NewBundleSource` followed by any sequence of
`Update` calls, the slot is never the never-stored state and always holds a
`*Bundle`-typed value, so the load-and-assert succeeds. -/
theorem stableBundle_assert_never_panics (b0 : Option Bundle) (ops : List SourceOp) :
    (applyOps (NewBundleSource b0) ops).bundle ≠ AtomicVal.empty ∧
    ∃ v, (applyOps (NewBundleSource b0) ops).StableBundle = some v := by
  rw [applyOps_newBundleSource]
  refine ⟨?_, ⟨lastUpdated b0 ops, rfl⟩⟩
  intro h
  simp [NewBundleSource] at h
